import Mathlib

/-!
# Verification of `prisma-extension-saltids`

A shallow embedding, in Lean 4, of the core logic of the
`prisma-extension-saltids` repository:

* the pure codec (`src/utils.ts`, class `SaltIdsHelper`);
* the schema registry data (`src/utils.ts`, `ModelRegistry` lookups);
* the argument transformer (`src/logic.ts`, `deepTransformInput`,
  `transformSaltedFieldFilterObject`, `buildOrClausesForIn`, `pushAnd`,
  `deepInjectSalt`);
* the result hijacker (`src/logic.ts`, `deepHijackResult`, and
  `src/raw.ts`, `hijackObject`);
* the raw-SQL predicate builders (`src/raw.ts`, `saltIdsSql`'s `where`
  namespace and `combineOr`);
* the `findUnique` downgrade branch of the extension's `$allOperations`
  interceptor (`src/index.ts`).

JavaScript numbers are modelled as exact `Int` (every value the library
manipulates is an integer obtained by decimal-string concatenation of
bounded parts).  JavaScript decimal-string operations on non-negative
integers are modelled arithmetically: the decimal representation of
`a : Nat` has `numDigits a` characters, its first `k` characters denote
`a / 10 ^ (numDigits a - k)` and the remaining characters denote
`a % 10 ^ (numDigits a - k)`; `Number (s ++ t)` of two digit strings
denoting `a` and `b` is `a * 10 ^ (length t) + b`.  Exceptions (`throw`)
are modelled with `Option` / error results.
-/

/-! ## Decimal digit length

`numDigits a` models `a.toString().length` for a non-negative integer.
Fuel-based so that it reduces definitionally (fuel `a` is always
sufficient since `a / 10` strictly decreases). -/

def numDigitsGo : Nat → Nat → Nat
  | 0, _ => 1
  | f + 1, n => if n < 10 then 1 else numDigitsGo f (n / 10) + 1

def numDigits (n : Nat) : Nat := numDigitsGo n n

theorem numDigitsGo_eq_log (f n : Nat) (h : n ≤ f) :
    numDigitsGo f n = Nat.log 10 n + 1 := by
  induction f generalizing n with
  | zero =>
    interval_cases n
    simp [numDigitsGo]
  | succ f ih =>
    by_cases h10 : n < 10
    · have hlog : Nat.log 10 n = 0 := by
        rw [Nat.log_eq_zero_iff]
        exact Or.inl h10
      cases f <;> simp [numDigitsGo, h10, hlog]
    · push_neg at h10
      have hn0 : 0 < n := by omega
      have hdiv : n / 10 < n := Nat.div_lt_self hn0 (by norm_num)
      have hle : n / 10 ≤ f := by omega
      have hlog : 0 < Nat.log 10 n := Nat.log_pos (by norm_num) h10
      have hdb : Nat.log 10 (n / 10) = Nat.log 10 n - 1 := Nat.log_div_base 10 n
      simp only [numDigitsGo, if_neg (by omega : ¬ n < 10)]
      rw [ih _ hle, hdb]
      omega

theorem numDigits_eq_log (n : Nat) : numDigits n = Nat.log 10 n + 1 :=
  numDigitsGo_eq_log n n le_rfl

theorem numDigits_pos (n : Nat) : 0 < numDigits n := by
  rw [numDigits_eq_log]; omega

theorem lt_pow_numDigits (n : Nat) : n < 10 ^ numDigits n := by
  rw [numDigits_eq_log]
  exact Nat.lt_pow_succ_log_self (by norm_num) n

theorem pow_numDigits_pred_le (n : Nat) (h : n ≠ 0) :
    10 ^ (numDigits n - 1) ≤ n := by
  rw [numDigits_eq_log]
  simpa using Nat.pow_log_le_self 10 h

theorem numDigits_eq_of_bounds (k n : Nat) (h1 : 10 ^ k ≤ n) (h2 : n < 10 ^ (k + 1)) :
    numDigits n = k + 1 := by
  rw [numDigits_eq_log, Nat.log_eq_of_pow_le_of_lt_pow h1 h2]

/-- Decimal concatenation: if `s` is an `L`-digit number (no leading zero)
then the number denoted by `digits s ++ digits r`, namely
`s * 10 ^ numDigits r + r`, has `L + numDigits r` digits, its first `L`
digits denote `s` and its remaining digits denote `r`. -/
theorem concat_digits (s r L : Nat) (h1 : 10 ^ (L - 1) ≤ s) (h2 : s < 10 ^ L)
    (hL : 1 ≤ L) :
    numDigits (s * 10 ^ numDigits r + r) = L + numDigits r ∧
    (s * 10 ^ numDigits r + r) / 10 ^ numDigits r = s ∧
    (s * 10 ^ numDigits r + r) % 10 ^ numDigits r = r := by
  have hr : r < 10 ^ numDigits r := lt_pow_numDigits r
  have hp : (0 : Nat) < 10 ^ numDigits r := pow_pos (by norm_num) _
  have hcomm : s * 10 ^ numDigits r = 10 ^ numDigits r * s := Nat.mul_comm _ _
  refine ⟨?_, ?_, ?_⟩
  · have hlo : 10 ^ (L - 1 + numDigits r) ≤ s * 10 ^ numDigits r + r := by
      calc 10 ^ (L - 1 + numDigits r) = 10 ^ (L - 1) * 10 ^ numDigits r := by
            rw [pow_add]
      _ ≤ s * 10 ^ numDigits r := Nat.mul_le_mul_right _ h1
      _ ≤ s * 10 ^ numDigits r + r := Nat.le_add_right _ _
    have hhi : s * 10 ^ numDigits r + r < 10 ^ (L + numDigits r) := by
      calc s * 10 ^ numDigits r + r < s * 10 ^ numDigits r + 10 ^ numDigits r :=
            Nat.add_lt_add_left hr _
      _ = (s + 1) * 10 ^ numDigits r := by ring
      _ ≤ 10 ^ L * 10 ^ numDigits r := Nat.mul_le_mul_right _ (by omega)
      _ = 10 ^ (L + numDigits r) := by rw [pow_add]
    have := numDigits_eq_of_bounds (L - 1 + numDigits r) _ hlo
      (by have he : L - 1 + numDigits r + 1 = L + numDigits r := by omega
          rw [he]; exact hhi)
    omega
  · rw [hcomm, Nat.mul_add_div hp, Nat.div_eq_of_lt hr]
    omega
  · rw [hcomm, Nat.mul_add_mod, Nat.mod_eq_of_lt hr]

/-! ## Codec (`src/utils.ts`, class `SaltIdsHelper`)

`encode` throws when the salt is negative or its decimal string length is
not `saltLen`; a thrown error is modelled as `none`.  `jsIntStrLen`
models `n.toString().length` for a signed integer (a leading `-` adds one
character). -/

def jsIntStrLen (n : Int) : Nat :=
  if n < 0 then numDigits n.natAbs + 1 else numDigits n.natAbs

namespace SaltIdsHelper

/-- `SaltIdsHelper.encode` (src/utils.ts lines 7–19).
`Number(saltStr + absIdStr)` is `salt * 10 ^ (digits of absId) + absId`
(for the validated `salt ≥ 0`). -/
def encode (realId salt : Int) (saltLen : Nat) : Option Int :=
  if salt < 0 ∨ jsIntStrLen salt ≠ saltLen then none
  else
    let m : Nat := salt.toNat * 10 ^ numDigits realId.natAbs + realId.natAbs
    some (if realId < 0 then -(m : Int) else (m : Int))

/-- `SaltIdsHelper.decode` (src/utils.ts lines 21–40); returns `(id, salt)`.
The first `saltLen` characters of the decimal string of `|pid|` denote
`|pid| / 10 ^ (numDigits |pid| - saltLen)`, the remaining characters
denote `|pid| % 10 ^ (numDigits |pid| - saltLen)`. -/
def decode (pid : Int) (saltLen : Nat) : Int × Int :=
  let a := pid.natAbs
  let n := numDigits a
  if n ≤ saltLen then (pid, 0)
  else
    let p := 10 ^ (n - saltLen)
    (if pid < 0 then -((a % p : Nat) : Int) else ((a % p : Nat) : Int),
     ((a / p : Nat) : Int))

/-- `SaltIdsHelper.isPotentialSaltId` (src/utils.ts lines 42–47). -/
def isPotentialSaltId (val : Int) (saltLen : Nat) : Bool :=
  saltLen < numDigits val.natAbs

end SaltIdsHelper

/-- Unfolding of `decode` in the genuinely-salted case, with the absolute
value abstracted. -/
theorem decode_spec (pid : Int) (L a : Nat) (ha : pid.natAbs = a)
    (h : L < numDigits a) :
    SaltIdsHelper.decode pid L =
      ((if pid < 0 then -((a % 10 ^ (numDigits a - L) : Nat) : Int)
        else ((a % 10 ^ (numDigits a - L) : Nat) : Int)),
       ((a / 10 ^ (numDigits a - L) : Nat) : Int)) := by
  subst ha
  unfold SaltIdsHelper.decode
  rw [if_neg (by omega : ¬ numDigits pid.natAbs ≤ L)]

/-! ## Claims C1, C7, C8 -/

/-- **C1** Codec round-trip: for every integer `realId` (including negative
and zero) and every salt whose decimal representation has exactly `saltLen`
digits (`salt > 0`, hence no leading zero),
`decode (encode realId salt saltLen) saltLen = (realId, salt)`. -/
theorem c1_encode_decode_roundtrip (realId salt : Int) (saltLen : Nat)
    (hpos : 0 < salt) (hlen : numDigits salt.natAbs = saltLen) :
    (SaltIdsHelper.encode realId salt saltLen).map
      (fun pid => SaltIdsHelper.decode pid saltLen) = some (realId, salt) := by
  have hsl1 : 1 ≤ saltLen := hlen ▸ numDigits_pos salt.natAbs
  have habs : salt.natAbs = salt.toNat := by omega
  have hslo : 10 ^ (saltLen - 1) ≤ salt.toNat := by
    have h := pow_numDigits_pred_le salt.natAbs (by omega)
    rw [hlen] at h; omega
  have hshi : salt.toNat < 10 ^ saltLen := by
    have h := lt_pow_numDigits salt.natAbs
    rw [hlen] at h; omega
  have hguard : ¬ (salt < 0 ∨ jsIntStrLen salt ≠ saltLen) := by
    push_neg
    refine ⟨by omega, ?_⟩
    unfold jsIntStrLen
    rw [if_neg (by omega : ¬ salt < 0)]
    omega
  unfold SaltIdsHelper.encode
  rw [if_neg hguard]
  simp only [Option.map_some']
  refine congrArg some ?_
  set d := numDigits realId.natAbs with hd
  set m : Nat := salt.toNat * 10 ^ d + realId.natAbs with hm
  obtain ⟨hdig, hdiv, hmod⟩ := concat_digits salt.toNat realId.natAbs saltLen hslo hshi hsl1
  rw [← hd] at hdig hdiv hmod
  rw [← hm] at hdig hdiv hmod
  have hd1 : 1 ≤ d := numDigits_pos realId.natAbs
  have hmpos : 0 < m := by
    have h10 : (0:Nat) < 10 ^ (saltLen - 1) := pow_pos (by norm_num) _
    have hs0 : 0 < salt.toNat := by omega
    have : 0 < salt.toNat * 10 ^ d := Nat.mul_pos hs0 (pow_pos (by norm_num) _)
    omega
  have hsub : saltLen + d - saltLen = d := by omega
  by_cases hrn : realId < 0
  · rw [if_pos hrn]
    have hpa : (-(m : Int)).natAbs = m := by simp
    rw [decode_spec _ _ m hpa (by rw [hdig]; omega)]
    rw [hdig, hsub, hdiv, hmod]
    rw [if_pos (by omega : -(m : Int) < 0)]
    simp only [Prod.mk.injEq]
    exact ⟨by omega, by omega⟩
  · rw [if_neg hrn]
    have hpa : ((m : Int)).natAbs = m := by simp
    rw [decode_spec _ _ m hpa (by rw [hdig]; omega)]
    rw [hdig, hsub, hdiv, hmod]
    rw [if_neg (by omega : ¬ (m : Int) < 0)]
    simp only [Prod.mk.injEq]
    exact ⟨by omega, by omega⟩

/-- **C1 witness**: the round-trip at `realId = -5`, `salt = 1234`,
`saltLen = 4`. -/
theorem c1_encode_decode_roundtrip_witness :
    (SaltIdsHelper.encode (-5) 1234 4).map
      (fun pid => SaltIdsHelper.decode pid 4) = some (-5, 1234) :=
  c1_encode_decode_roundtrip (-5) 1234 4 (by decide) (by decide)

/-- **C7** `encode` raises (returns `none`) exactly when the salt is
negative or its decimal digit count differs from `saltLen`; otherwise it
returns normally. -/
theorem c7_encode_error_iff (realId salt : Int) (saltLen : Nat) :
    SaltIdsHelper.encode realId salt saltLen = none ↔
      (salt < 0 ∨ numDigits salt.natAbs ≠ saltLen) := by
  unfold SaltIdsHelper.encode
  by_cases hneg : salt < 0
  · rw [if_pos (Or.inl hneg)]
    simp [hneg]
  · unfold jsIntStrLen
    rw [if_neg hneg]
    by_cases hlen : numDigits salt.natAbs = saltLen
    · rw [if_neg (by push_neg; exact ⟨by omega, hlen⟩)]
      simp [hneg, hlen]
    · rw [if_pos (Or.inr hlen)]
      simp [hlen]

/-- **C8** Short-value passthrough: a value whose absolute decimal
representation has at most `saltLen` digits decodes to itself with salt 0
and is not a potential salt id. -/
theorem c8_short_value_passthrough (v : Int) (saltLen : Nat)
    (h : numDigits v.natAbs ≤ saltLen) :
    SaltIdsHelper.decode v saltLen = (v, 0) ∧
      SaltIdsHelper.isPotentialSaltId v saltLen = false := by
  constructor
  · simp [SaltIdsHelper.decode, h]
  · simp only [SaltIdsHelper.isPotentialSaltId]
    simp
    omega

/-- **C8 witness**: passthrough at `v = -9999`, `saltLen = 4`. -/
theorem c8_short_value_passthrough_witness :
    SaltIdsHelper.decode (-9999) 4 = (-9999, 0) ∧
      SaltIdsHelper.isPotentialSaltId (-9999) 4 = false :=
  c8_short_value_passthrough (-9999) 4 (by decide)

/-! ## Raw-SQL predicate builders (`src/raw.ts`)

SQL fragments built by `Prisma.sql` are modelled as an abstract syntax
tree; each constructor corresponds to one template shape used in
`src/raw.ts`.  `ensureNumber` (the type-mismatch throw) is discharged by
typing: all id parameters are `Int` here.  Lean names replace the
reserved object keys of the source (`where.eq` becomes `whereEq`, etc.). -/

inductive Sql where
  | falseLit : Sql
  | eqCol (c : String) (v : Int) : Sql
  | gtCol (c : String) (v : Int) : Sql
  | ltCol (c : String) (v : Int) : Sql
  | betweenCol (c : String) (lo hi : Int) : Sql
  | andSql (a b : Sql) : Sql
  | orSql (a b : Sql) : Sql
  | notSql (s : Sql) : Sql
  | paren (s : Sql) : Sql
deriving DecidableEq, Repr

/-- Column names referenced by a fragment. -/
def Sql.colsOf : Sql → List String
  | .falseLit => []
  | .eqCol c _ => [c]
  | .gtCol c _ => [c]
  | .ltCol c _ => [c]
  | .betweenCol c _ _ => [c]
  | .andSql a b => a.colsOf ++ b.colsOf
  | .orSql a b => a.colsOf ++ b.colsOf
  | .notSql s => s.colsOf
  | .paren s => s.colsOf

/-- `escapeIdentPart` (src/raw.ts line 14): double every `"`. -/
def escapeIdentPart (s : String) : String :=
  ⟨s.data.flatMap fun ch => if ch = '\"' then ['\"', '\"'] else [ch]⟩

/-- `q` (src/raw.ts line 18). -/
def q (part : String) : String := "\"" ++ escapeIdentPart part ++ "\""

/-- `qualified` (src/raw.ts line 22). -/
def qualified (table : Option String) (c : String) : String :=
  match table with
  | none => q c
  | some t => q t ++ "." ++ q c

/-- `SaltIdsColumnRef` (src/raw.ts lines 7–12); the `base`/`salt` `Sql`
fragments are the rendered qualified column names. -/
structure SaltIdsColumnRef where
  base : String
  salt : String
  baseKey : String
  saltKey : String
deriving DecidableEq, Repr

/-- `col` (src/raw.ts lines 90–102). -/
def col (saltSuffix : String) (table : Option String) (baseKey : String) :
    SaltIdsColumnRef :=
  let saltKey := baseKey ++ saltSuffix
  { base := qualified table baseKey
    salt := qualified table saltKey
    baseKey := baseKey
    saltKey := saltKey }

/-- `combineOr` (src/raw.ts lines 39–47). -/
def combineOr (parts : List Sql) : Sql :=
  match parts with
  | [] => .falseLit
  | [x] => x
  | x :: rest => .paren (rest.foldl (fun acc p => .orSql acc p) x)

/-- `where.eq` (src/raw.ts lines 105–108). -/
def whereEq (saltLength : Nat) (c : SaltIdsColumnRef) (publicId : Int) : Sql :=
  let ds := SaltIdsHelper.decode publicId saltLength
  .paren (.andSql (.eqCol c.base ds.1) (.eqCol c.salt ds.2))

/-- `where.ne` (src/raw.ts lines 109–112). -/
def whereNe (saltLength : Nat) (c : SaltIdsColumnRef) (publicId : Int) : Sql :=
  .paren (.notSql (whereEq saltLength c publicId))

/-- `where.in` (src/raw.ts lines 113–116). -/
def whereInSql (saltLength : Nat) (c : SaltIdsColumnRef) (publicIds : List Int) : Sql :=
  combineOr (publicIds.map (whereEq saltLength c))

/-- `where.gtRealId` (src/raw.ts lines 117–119). -/
def whereGtRealId (c : SaltIdsColumnRef) (realId : Int) : Sql :=
  .gtCol c.base realId

/-- `where.ltRealId` (src/raw.ts lines 120–122). -/
def whereLtRealId (c : SaltIdsColumnRef) (realId : Int) : Sql :=
  .ltCol c.base realId

/-- `where.betweenRealId` (src/raw.ts lines 123–129). -/
def whereBetweenRealId (c : SaltIdsColumnRef) (a b : Int) : Sql :=
  .betweenCol c.base (min a b) (max a b)

/-- `where.gtFromSaltId` (src/raw.ts lines 130–133). -/
def whereGtFromSaltId (saltLength : Nat) (c : SaltIdsColumnRef) (publicId : Int) : Sql :=
  whereGtRealId c (SaltIdsHelper.decode publicId saltLength).1

/-- `where.ltFromSaltId` (src/raw.ts lines 134–137). -/
def whereLtFromSaltId (saltLength : Nat) (c : SaltIdsColumnRef) (publicId : Int) : Sql :=
  whereLtRealId c (SaltIdsHelper.decode publicId saltLength).1

/-- `where.betweenFromSaltIds` (src/raw.ts lines 138–142). -/
def whereBetweenFromSaltIds (saltLength : Nat) (c : SaltIdsColumnRef) (a b : Int) : Sql :=
  whereBetweenRealId c (SaltIdsHelper.decode a saltLength).1
    (SaltIdsHelper.decode b saltLength).1

/-- **C10** `where.in` on an empty list of public ids yields the constant
`FALSE` predicate (matches no rows) instead of raising or yielding an
unconstrained predicate. -/
theorem c10_where_in_empty_is_false (saltLength : Nat) (c : SaltIdsColumnRef) :
    whereInSql saltLength c [] = Sql.falseLit := rfl

/-! ## JavaScript values and objects

Plain JSON-like values manipulated by the argument transformer.  Objects
are ordered key/value lists (JavaScript objects preserve insertion
order); `undefined` is modelled as key absence.  `setK` mirrors property
assignment: an existing key is updated in place, a new key is appended.
The embedding has no `Date` values (the library only inspects them via
`instanceof Date` guards, which are always false here). -/

inductive JSVal where
  | null : JSVal
  | bool (b : Bool) : JSVal
  | num (n : Int) : JSVal
  | str (s : String) : JSVal
  | arr (elems : List JSVal) : JSVal
  | obj (fields : List (String × JSVal)) : JSVal

abbrev JSObj := List (String × JSVal)

def getK : JSObj → String → Option JSVal
  | [], _ => none
  | (k', v) :: rest, k => if k' = k then some v else getK rest k

def setK : JSObj → String → JSVal → JSObj
  | [], k, v => [(k, v)]
  | (k', v') :: rest, k, v =>
    if k' = k then (k, v) :: rest else (k', v') :: setK rest k v

def delK (o : JSObj) (k : String) : JSObj :=
  o.filter (fun p => p.1 ≠ k)

@[simp] theorem getK_nil (k : String) : getK [] k = none := rfl

theorem getK_cons (k' : String) (v : JSVal) (rest : JSObj) (k : String) :
    getK ((k', v) :: rest) k = if k' = k then some v else getK rest k := rfl

theorem setK_cons (k' : String) (v' : JSVal) (rest : JSObj) (k : String) (v : JSVal) :
    setK ((k', v') :: rest) k v =
      if k' = k then (k, v) :: rest else (k', v') :: setK rest k v := rfl

/-- `isPlainObject` (src/logic.ts): an object that is not null, not an
array and not a `Date`. -/
def isPlainObject : JSVal → Bool
  | .obj _ => true
  | _ => false

/-! ## Schema registry (`src/utils.ts`, `ModelRegistry`)

Claims are settled against explicitly given registries, so only the
read-only lookups are embedded. -/

/-- `SaltField` (src/utils.ts lines 55–58) extended by the default-value
flags read by `deepInjectSalt`.  Modelled from the spec: the registry
revision that records "default-value status" (spec §2, §4.3 Pass B) is
not part of the snapshot's `utils.ts`, but `deepInjectSalt` (current
`logic.ts`) destructures `hasDefaultValue` / `saltHasDefaultValue` from
each registered pair. -/
structure SaltField where
  base : String
  salt : String
  hasDefaultValue : Bool
  saltHasDefaultValue : Bool
deriving DecidableEq, Repr

/-- `RelationField` (src/utils.ts lines 60–64). -/
structure RelationField where
  name : String
  type : String
  isList : Bool
deriving DecidableEq, Repr

/-- The lookup state of `ModelRegistry` after `init`. -/
structure ModelRegistry where
  saltFields : List (String × List SaltField)
  relations : List (String × List (String × RelationField))
deriving DecidableEq, Repr

/-- `ModelRegistry.getSaltFields` (src/utils.ts lines 115–117). -/
def ModelRegistry.getSaltFields (r : ModelRegistry) (model : String) :
    List SaltField :=
  match r.saltFields.find? (fun p => p.1 = model) with
  | some p => p.2
  | none => []

/-- `ModelRegistry.getRelation` (src/utils.ts lines 119–121). -/
def ModelRegistry.getRelation (r : ModelRegistry) (model field : String) :
    Option RelationField :=
  match r.relations.find? (fun p => p.1 = model) with
  | some p => (p.2.find? (fun rel => rel.1 = field)).map Prod.snd
  | none => none

/-! ## Argument transformer (current `logic.ts`)

Functional rendering of the in-place mutations: each helper takes and
returns the enclosing `where` object, the filter object it aliases at the
base key (synchronised at the end of `transformSaltedFieldFilterObject`),
and the `did` flag. -/

/-- `decodeSaltIdIfNeeded` (logic.ts): decodes a number that passes the
potential-salt-id heuristic. -/
def decodeSaltIdIfNeeded (v : JSVal) (L : Nat) : Option (Int × Int) :=
  match v with
  | .num n =>
    if SaltIdsHelper.isPotentialSaltId n L then some (SaltIdsHelper.decode n L)
    else none
  | _ => none

/-- `pushAnd` (logic.ts): AND-append a clause to a where object. -/
def pushAnd (w : JSObj) (clause : JSVal) : JSObj :=
  match getK w "AND" with
  | none => setK w "AND" (.arr [clause])
  | some (.arr xs) => setK w "AND" (.arr (xs ++ [clause]))
  | some cur => setK w "AND" (.arr [cur, clause])

/-- `buildOrClausesForIn` (logic.ts): partition a membership list into
non-salted numbers (one residual `in` clause) and salted numbers (one
`(base, salt)` pair-equality clause each). -/
def buildOrClausesForIn (baseKey saltKey : String) (input : JSVal) (L : Nat) :
    List JSVal :=
  let list := match input with | .arr xs => xs | _ => []
  let nums := list.filterMap (fun v => match v with | .num n => some n | _ => none)
  let rawIds := nums.filter (fun n => !(SaltIdsHelper.isPotentialSaltId n L))
  let pairs := nums.filterMap (fun n =>
    if SaltIdsHelper.isPotentialSaltId n L then some (SaltIdsHelper.decode n L)
    else none)
  (if rawIds.isEmpty then []
   else [.obj [(baseKey, .obj [("in", .arr (rawIds.map .num))])]]) ++
  pairs.map (fun p => .obj [(baseKey, .num p.1), (saltKey, .num p.2)])

/-- The `equals` / `set` handler of `transformSaltedFieldFilterObject`. -/
def tsffEqLike (L : Nat) (saltKey key : String) :
    JSObj × JSObj × Bool → JSObj × JSObj × Bool
  | (w, f, did) =>
    match getK f key with
    | none => (w, f, did)
    | some v =>
      match decodeSaltIdIfNeeded v L with
      | none => (w, f, did)
      | some ds => (pushAnd w (.obj [(saltKey, .num ds.2)]), setK f key (.num ds.1), true)

/-- The `gt` / `gte` / `lt` / `lte` handler of
`transformSaltedFieldFilterObject`: real id only, no salt clause. -/
def tsffRangeOp (L : Nat) (key : String) :
    JSObj × JSObj × Bool → JSObj × JSObj × Bool
  | (w, f, did) =>
    match getK f key with
    | none => (w, f, did)
    | some v =>
      match decodeSaltIdIfNeeded v L with
      | none => (w, f, did)
      | some ds => (w, setK f key (.num ds.1), true)

/-- The `in` handler of `transformSaltedFieldFilterObject`. -/
def tsffIn (L : Nat) (baseKey saltKey : String) :
    JSObj × JSObj × Bool → JSObj × JSObj × Bool
  | (w, f, did) =>
    match getK f "in" with
    | some (.arr xs) =>
      if xs.length > 0 then
        let orClauses := buildOrClausesForIn baseKey saltKey (.arr xs) L
        let f' := delK f "in"
        if orClauses.isEmpty then (w, f', did)
        else (pushAnd w (.obj [("OR", .arr orClauses)]), f', true)
      else (w, f, did)
    | _ => (w, f, did)

/-- The `notIn` handler of `transformSaltedFieldFilterObject`. -/
def tsffNotIn (L : Nat) (baseKey saltKey : String) :
    JSObj × JSObj × Bool → JSObj × JSObj × Bool
  | (w, f, did) =>
    match getK f "notIn" with
    | none => (w, f, did)
    | some v =>
      let list := match v with | .arr xs => xs | _ => []
      let nums := list.filterMap (fun x => match x with | .num n => some n | _ => none)
      let saltIds := nums.filter (fun n => SaltIdsHelper.isPotentialSaltId n L)
      let rawIds := nums.filter (fun n => !(SaltIdsHelper.isPotentialSaltId n L))
      let orClauses := buildOrClausesForIn baseKey saltKey (.arr (saltIds.map .num)) L
      let wd : JSObj × Bool :=
        if orClauses.isEmpty then (w, did)
        else (pushAnd w (.obj [("NOT", .obj [("OR", .arr orClauses)])]), true)
      let f' := if rawIds.isEmpty then delK f "notIn"
                else setK f "notIn" (.arr (rawIds.map .num))
      (wd.1, f', wd.2)

/-- The `not` handler of `transformSaltedFieldFilterObject`. -/
def tsffNot (L : Nat) (baseKey saltKey : String) :
    JSObj × JSObj × Bool → JSObj × JSObj × Bool
  | (w, f, did) =>
    match getK f "not" with
    | none => (w, f, did)
    | some nv =>
      match decodeSaltIdIfNeeded nv L with
      | some ds =>
        (pushAnd w (.obj [("NOT", .obj [(baseKey, .num ds.1), (saltKey, .num ds.2)])]),
         delK f "not", true)
      | none =>
        match nv with
        | .obj inner =>
          match getK inner "equals" with
          | some ev =>
            match decodeSaltIdIfNeeded ev L with
            | some ds =>
              (pushAnd w (.obj [("NOT", .obj [(baseKey, .num ds.1), (saltKey, .num ds.2)])]),
               delK f "not", true)
            | none => (w, f, did)
          | none =>
            match getK inner "in" with
            | some (.arr xs) =>
              if xs.length > 0 then
                let orClauses := buildOrClausesForIn baseKey saltKey (.arr xs) L
                if orClauses.isEmpty then (w, f, did)
                else (pushAnd w (.obj [("NOT", .obj [("OR", .arr orClauses)])]),
                      delK f "not", true)
              else (w, f, did)
            | _ => (w, f, did)
        | _ => (w, f, did)

/-- `transformSaltedFieldFilterObject` (current logic.ts lines 61–164):
runs the operator handlers in source order, then removes the base-field
key when its filter object has become empty. -/
def transformSaltedFieldFilterObject (w : JSObj) (baseKey saltKey : String)
    (f : JSObj) (L : Nat) : JSObj × Bool :=
  let st := tsffNot L baseKey saltKey
    (tsffNotIn L baseKey saltKey
      (tsffIn L baseKey saltKey
        (tsffRangeOp L "lte"
          (tsffRangeOp L "lt"
            (tsffRangeOp L "gte"
              (tsffRangeOp L "gt"
                (tsffEqLike L saltKey "set"
                  (tsffEqLike L saltKey "equals" (w, f, false)))))))))
  match st with
  | (w', f', did) =>
    if f'.isEmpty then (delK w' baseKey, did)
    else (setK w' baseKey (.obj f'), did)

/-- `deepTransformInput` (current logic.ts lines 171–243).  Fuel-based
functional rendering of the in-place tree walk: the key list is the
snapshot taken by `Object.keys` at loop entry, while values are read from
the evolving object.  Fuel only bounds recursion depth into nested
values; one unit is consumed per level, so any `fuel` larger than the
nesting depth of the argument computes the JavaScript result. -/
def deepTransformInput (fuel : Nat) (v : JSVal) (modelName : String)
    (registry : ModelRegistry) (L : Nat) : JSVal × Bool :=
  match fuel with
  | 0 => (v, false)
  | fuel + 1 =>
    match v with
    | .arr xs =>
      if modelName = "" then (v, false)
      else
        let rs := xs.map (fun x => deepTransformInput fuel x modelName registry L)
        (.arr (rs.map Prod.fst), rs.any Prod.snd)
    | .obj o0 =>
      if modelName = "" then (v, false)
      else
        let saltFields := registry.getSaltFields modelName
        let keys := o0.map Prod.fst
        let res := keys.foldl (fun (st : JSObj × Bool) k =>
          let o := st.1
          let did := st.2
          match getK o k with
          | none => (o, did)
          | some val =>
            match saltFields.find? (fun sf => sf.base = k), val with
            | some sf, .num n =>
              if (getK o sf.salt).isNone && SaltIdsHelper.isPotentialSaltId n L then
                let ds := SaltIdsHelper.decode n L
                (setK (setK o k (.num ds.1)) sf.salt (.num ds.2), true)
              else (o, did)
            | some sf, .bool true =>
              if (getK o sf.salt).isNone then (setK o sf.salt (.bool true), did)
              else (o, did)
            | some sf, .obj f =>
              let r := transformSaltedFieldFilterObject o k sf.salt f L
              (r.1, did || r.2)
            | _, _ =>
              match val with
              | .obj _ | .arr _ =>
                let nextModel :=
                  match registry.getRelation modelName k with
                  | some rel => rel.type
                  | none => modelName
                let r := deepTransformInput fuel val nextModel registry L
                (setK o k r.1, did || r.2)
              | _ => (o, did)) (o0, false)
        (.obj res.1, res.2)
    | _ => (v, false)

/-! ## Handler characterization lemmas -/

def isNumV : JSVal → Bool
  | .num _ => true
  | _ => false

theorem tsffEqLike_none (L : Nat) (sk key : String) (w f : JSObj) (did : Bool)
    (h : getK f key = none) : tsffEqLike L sk key (w, f, did) = (w, f, did) := by
  simp [tsffEqLike, h]

theorem tsffEqLike_hit (L : Nat) (sk key : String) (w f : JSObj) (did : Bool) (v : Int)
    (h : getK f key = some (.num v))
    (hpot : SaltIdsHelper.isPotentialSaltId v L = true) :
    tsffEqLike L sk key (w, f, did) =
      (pushAnd w (.obj [(sk, .num (SaltIdsHelper.decode v L).2)]),
       setK f key (.num (SaltIdsHelper.decode v L).1), true) := by
  simp [tsffEqLike, h, decodeSaltIdIfNeeded, hpot]

theorem tsffRangeOp_none (L : Nat) (key : String) (w f : JSObj) (did : Bool)
    (h : getK f key = none) : tsffRangeOp L key (w, f, did) = (w, f, did) := by
  simp [tsffRangeOp, h]

theorem tsffRangeOp_hit (L : Nat) (key : String) (w f : JSObj) (did : Bool) (v : Int)
    (h : getK f key = some (.num v))
    (hpot : SaltIdsHelper.isPotentialSaltId v L = true) :
    tsffRangeOp L key (w, f, did) =
      (w, setK f key (.num (SaltIdsHelper.decode v L).1), true) := by
  simp [tsffRangeOp, h, decodeSaltIdIfNeeded, hpot]

theorem tsffIn_none (L : Nat) (bk sk : String) (w f : JSObj) (did : Bool)
    (h : getK f "in" = none) : tsffIn L bk sk (w, f, did) = (w, f, did) := by
  simp [tsffIn, h]

theorem tsffIn_drop (L : Nat) (bk sk : String) (w f : JSObj) (did : Bool)
    (xs : List JSVal) (h : getK f "in" = some (.arr xs)) (hlen : 0 < xs.length)
    (hOr : buildOrClausesForIn bk sk (.arr xs) L = []) :
    tsffIn L bk sk (w, f, did) = (w, delK f "in", did) := by
  simp [tsffIn, h, hlen, hOr]

theorem tsffNotIn_none (L : Nat) (bk sk : String) (w f : JSObj) (did : Bool)
    (h : getK f "notIn" = none) : tsffNotIn L bk sk (w, f, did) = (w, f, did) := by
  simp [tsffNotIn, h]

theorem tsffNot_none (L : Nat) (bk sk : String) (w f : JSObj) (did : Bool)
    (h : getK f "not" = none) : tsffNot L bk sk (w, f, did) = (w, f, did) := by
  simp [tsffNot, h]

theorem jsNums_nil (vs : List JSVal) (h : ∀ x ∈ vs, isNumV x = false) :
    vs.filterMap (fun v => match v with | .num n => some n | _ => none) = [] := by
  induction vs with
  | nil => rfl
  | cons x rest ih =>
    have hx := h x (by simp)
    have hrest : ∀ y ∈ rest, isNumV y = false := fun y hy => h y (by simp [hy])
    cases x <;> simp_all [isNumV, List.filterMap]

theorem buildOrClausesForIn_no_nums (bk sk : String) (vs : List JSVal) (L : Nat)
    (h : vs.filterMap (fun v => match v with | .num n => some n | _ => none) = []) :
    buildOrClausesForIn bk sk (.arr vs) L = [] := by
  simp [buildOrClausesForIn, h]

/-- An `in` filter whose list holds no numeric value is dropped entirely:
the `in` key is deleted, nothing is appended, the base key is removed
(its filter became empty), and `did` stays `false`. -/
theorem tsff_in_all_dropped (w : JSObj) (bk sk : String) (vs : List JSVal) (L : Nat)
    (hlen : 0 < vs.length)
    (h : vs.filterMap (fun v => match v with | .num n => some n | _ => none) = []) :
    transformSaltedFieldFilterObject w bk sk [("in", .arr vs)] L = (delK w bk, false) := by
  unfold transformSaltedFieldFilterObject
  rw [tsffEqLike_none _ _ _ _ _ _ (by rfl)]
  rw [tsffEqLike_none _ _ _ _ _ _ (by rfl)]
  rw [tsffRangeOp_none _ _ _ _ _ (by rfl)]
  rw [tsffRangeOp_none _ _ _ _ _ (by rfl)]
  rw [tsffRangeOp_none _ _ _ _ _ (by rfl)]
  rw [tsffRangeOp_none _ _ _ _ _ (by rfl)]
  rw [tsffIn_drop _ _ _ _ _ _ vs (by rfl) hlen (buildOrClausesForIn_no_nums bk sk vs L h)]
  rw [show delK [("in", JSVal.arr vs)] "in" = ([] : JSObj) from rfl]
  rw [tsffNotIn_none _ _ _ _ _ _ (by rfl)]
  rw [tsffNot_none _ _ _ _ _ _ (by rfl)]
  rfl

/-- A lone range filter (`gt`/`gte`/`lt`/`lte`) on a salted field is
rewritten to the decoded real id; no clause mentioning the salt field is
appended and the rest of the where object is untouched. -/
theorem tsff_range_real_id_only (w : JSObj) (bk sk : String) (v : Int) (L : Nat)
    (op : String) (hop : op = "gt" ∨ op = "gte" ∨ op = "lt" ∨ op = "lte")
    (hpot : SaltIdsHelper.isPotentialSaltId v L = true) :
    transformSaltedFieldFilterObject w bk sk [(op, .num v)] L =
      (setK w bk (.obj [(op, .num (SaltIdsHelper.decode v L).1)]), true) := by
  rcases hop with rfl | rfl | rfl | rfl
  · unfold transformSaltedFieldFilterObject
    rw [tsffEqLike_none L sk "equals" w [("gt", .num v)] false (by rfl)]
    rw [tsffEqLike_none L sk "set" w [("gt", .num v)] false (by rfl)]
    rw [tsffRangeOp_hit L "gt" w [("gt", .num v)] false v (by rfl) hpot]
    rw [show setK [("gt", JSVal.num v)] "gt" (JSVal.num (SaltIdsHelper.decode v L).1)
          = [("gt", JSVal.num (SaltIdsHelper.decode v L).1)] from rfl]
    rw [tsffRangeOp_none L "gte" w [("gt", .num (SaltIdsHelper.decode v L).1)] true (by rfl)]
    rw [tsffRangeOp_none L "lt" w [("gt", .num (SaltIdsHelper.decode v L).1)] true (by rfl)]
    rw [tsffRangeOp_none L "lte" w [("gt", .num (SaltIdsHelper.decode v L).1)] true (by rfl)]
    rw [tsffIn_none L bk sk w [("gt", .num (SaltIdsHelper.decode v L).1)] true (by rfl)]
    rw [tsffNotIn_none L bk sk w [("gt", .num (SaltIdsHelper.decode v L).1)] true (by rfl)]
    rw [tsffNot_none L bk sk w [("gt", .num (SaltIdsHelper.decode v L).1)] true (by rfl)]
    rfl
  · unfold transformSaltedFieldFilterObject
    rw [tsffEqLike_none L sk "equals" w [("gte", .num v)] false (by rfl)]
    rw [tsffEqLike_none L sk "set" w [("gte", .num v)] false (by rfl)]
    rw [tsffRangeOp_none L "gt" w [("gte", .num v)] false (by rfl)]
    rw [tsffRangeOp_hit L "gte" w [("gte", .num v)] false v (by rfl) hpot]
    rw [show setK [("gte", JSVal.num v)] "gte" (JSVal.num (SaltIdsHelper.decode v L).1)
          = [("gte", JSVal.num (SaltIdsHelper.decode v L).1)] from rfl]
    rw [tsffRangeOp_none L "lt" w [("gte", .num (SaltIdsHelper.decode v L).1)] true (by rfl)]
    rw [tsffRangeOp_none L "lte" w [("gte", .num (SaltIdsHelper.decode v L).1)] true (by rfl)]
    rw [tsffIn_none L bk sk w [("gte", .num (SaltIdsHelper.decode v L).1)] true (by rfl)]
    rw [tsffNotIn_none L bk sk w [("gte", .num (SaltIdsHelper.decode v L).1)] true (by rfl)]
    rw [tsffNot_none L bk sk w [("gte", .num (SaltIdsHelper.decode v L).1)] true (by rfl)]
    rfl
  · unfold transformSaltedFieldFilterObject
    rw [tsffEqLike_none L sk "equals" w [("lt", .num v)] false (by rfl)]
    rw [tsffEqLike_none L sk "set" w [("lt", .num v)] false (by rfl)]
    rw [tsffRangeOp_none L "gt" w [("lt", .num v)] false (by rfl)]
    rw [tsffRangeOp_none L "gte" w [("lt", .num v)] false (by rfl)]
    rw [tsffRangeOp_hit L "lt" w [("lt", .num v)] false v (by rfl) hpot]
    rw [show setK [("lt", JSVal.num v)] "lt" (JSVal.num (SaltIdsHelper.decode v L).1)
          = [("lt", JSVal.num (SaltIdsHelper.decode v L).1)] from rfl]
    rw [tsffRangeOp_none L "lte" w [("lt", .num (SaltIdsHelper.decode v L).1)] true (by rfl)]
    rw [tsffIn_none L bk sk w [("lt", .num (SaltIdsHelper.decode v L).1)] true (by rfl)]
    rw [tsffNotIn_none L bk sk w [("lt", .num (SaltIdsHelper.decode v L).1)] true (by rfl)]
    rw [tsffNot_none L bk sk w [("lt", .num (SaltIdsHelper.decode v L).1)] true (by rfl)]
    rfl
  · unfold transformSaltedFieldFilterObject
    rw [tsffEqLike_none L sk "equals" w [("lte", .num v)] false (by rfl)]
    rw [tsffEqLike_none L sk "set" w [("lte", .num v)] false (by rfl)]
    rw [tsffRangeOp_none L "gt" w [("lte", .num v)] false (by rfl)]
    rw [tsffRangeOp_none L "gte" w [("lte", .num v)] false (by rfl)]
    rw [tsffRangeOp_none L "lt" w [("lte", .num v)] false (by rfl)]
    rw [tsffRangeOp_hit L "lte" w [("lte", .num v)] false v (by rfl) hpot]
    rw [show setK [("lte", JSVal.num v)] "lte" (JSVal.num (SaltIdsHelper.decode v L).1)
          = [("lte", JSVal.num (SaltIdsHelper.decode v L).1)] from rfl]
    rw [tsffIn_none L bk sk w [("lte", .num (SaltIdsHelper.decode v L).1)] true (by rfl)]
    rw [tsffNotIn_none L bk sk w [("lte", .num (SaltIdsHelper.decode v L).1)] true (by rfl)]
    rw [tsffNot_none L bk sk w [("lte", .num (SaltIdsHelper.decode v L).1)] true (by rfl)]
    rfl

/-! ## Claims C3, C6, C9

Settled on a canonical registered pair: model `Post` with base field
`postPk` paired with salt field `postPkSalt` (suffix `"Salt"`), no
relations. -/

def postRegistry : ModelRegistry :=
  ⟨[("Post", [⟨"postPk", "postPkSalt", false, false⟩])], [("Post", [])]⟩

/-- **C3 counterexample**: `5123456` is a potential salted id for
`saltLen = 3` and `postPk` is a registered base field, yet when the
paired salt field is already present in the same object
`deepTransformInput` leaves the value untouched and reports
`didTransformId = false`, contradicting the claim that the base value is
replaced by the decoded real id and that `didTransformId = true`. -/
theorem c3_counterexample_salt_already_present :
    deepTransformInput 1
        (.obj [("postPk", .num 5123456), ("postPkSalt", .num 7)]) "Post" postRegistry 3
      = (.obj [("postPk", .num 5123456), ("postPkSalt", .num 7)], false) ∧
    ¬ ((deepTransformInput 1
        (.obj [("postPk", .num 5123456), ("postPkSalt", .num 7)]) "Post" postRegistry 3).2
      = true) :=
  ⟨rfl, by decide⟩

/-- **C3 (amended)** Pass A equality decomposition: when a registered base
field holds a plain number recognized as a potential salted id *and the
paired salt field is not already present in the same object*,
`deepTransformInput` replaces the value with the decoded real id, injects
the decoded salt under the paired salt field name, and reports
`didTransformId = true`; when the paired salt field is already present,
the value is left unchanged and no transformation is reported. -/
theorem c3_amended_pass_a_decomposition (fuel : Nat) (v w : Int) (L : Nat)
    (hpot : SaltIdsHelper.isPotentialSaltId v L = true) :
    (deepTransformInput (fuel + 1) (.obj [("postPk", .num v)]) "Post" postRegistry L
      = (.obj [("postPk", .num (SaltIdsHelper.decode v L).1),
               ("postPkSalt", .num (SaltIdsHelper.decode v L).2)], true)) ∧
    (deepTransformInput (fuel + 1)
        (.obj [("postPk", .num v), ("postPkSalt", .num w)]) "Post" postRegistry L
      = (.obj [("postPk", .num v), ("postPkSalt", .num w)], false)) := by
  constructor
  · simp [deepTransformInput, ModelRegistry.getSaltFields, postRegistry, getK, setK, hpot]
  · simp [deepTransformInput, ModelRegistry.getSaltFields, postRegistry, getK, setK]

/-- **C3 witness**: the amended claim at `v = 5123456`, `w = 7`,
`saltLen = 3` (`decode` gives real id `3456`, salt `512`). -/
theorem c3_amended_pass_a_decomposition_witness :
    (deepTransformInput 1 (.obj [("postPk", .num 5123456)]) "Post" postRegistry 3
      = (.obj [("postPk", .num (SaltIdsHelper.decode 5123456 3).1),
               ("postPkSalt", .num (SaltIdsHelper.decode 5123456 3).2)], true)) ∧
    (deepTransformInput 1
        (.obj [("postPk", .num 5123456), ("postPkSalt", .num 7)]) "Post" postRegistry 3
      = (.obj [("postPk", .num 5123456), ("postPkSalt", .num 7)], false)) :=
  c3_amended_pass_a_decomposition 0 5123456 7 3 (by decide)

/-- **C6** Range comparisons use the real id only: a `gt`/`gte`/`lt`/`lte`
filter operand that is a potential salted id is replaced by the decoded
real id with no salt condition appended, and the raw range builders
`gtFromSaltId` / `ltFromSaltId` / `betweenFromSaltIds` compare only the
real-id component — the built fragments reference only the base column. -/
theorem c6_range_comparisons_real_id_only (fuel : Nat) (v : Int) (L : Nat)
    (op : String) (c : SaltIdsColumnRef) (pid a b : Int)
    (hop : op = "gt" ∨ op = "gte" ∨ op = "lt" ∨ op = "lte")
    (hpot : SaltIdsHelper.isPotentialSaltId v L = true) :
    (deepTransformInput (fuel + 1) (.obj [("postPk", .obj [(op, .num v)])])
        "Post" postRegistry L
      = (.obj [("postPk", .obj [(op, .num (SaltIdsHelper.decode v L).1)])], true)) ∧
    whereGtFromSaltId L c pid = Sql.gtCol c.base (SaltIdsHelper.decode pid L).1 ∧
    whereLtFromSaltId L c pid = Sql.ltCol c.base (SaltIdsHelper.decode pid L).1 ∧
    whereBetweenFromSaltIds L c a b =
      Sql.betweenCol c.base
        (min (SaltIdsHelper.decode a L).1 (SaltIdsHelper.decode b L).1)
        (max (SaltIdsHelper.decode a L).1 (SaltIdsHelper.decode b L).1) ∧
    (whereGtFromSaltId L c pid).colsOf = [c.base] ∧
    (whereLtFromSaltId L c pid).colsOf = [c.base] ∧
    (whereBetweenFromSaltIds L c a b).colsOf = [c.base] := by
  refine ⟨?_, rfl, rfl, rfl, rfl, rfl, rfl⟩
  have h := tsff_range_real_id_only [("postPk", .obj [(op, .num v)])]
    "postPk" "postPkSalt" v L op hop hpot
  simp [deepTransformInput, ModelRegistry.getSaltFields, postRegistry, getK, setK, h]

/-- **C6 witness**: the `gt` case at `v = pid = 5123456`, `a = 1999`,
`b = 2555`, `saltLen = 3`, on a concrete column reference. -/
theorem c6_range_comparisons_real_id_only_witness :
    (deepTransformInput 1 (.obj [("postPk", .obj [("gt", .num 5123456)])])
        "Post" postRegistry 3
      = (.obj [("postPk", .obj [("gt", .num (SaltIdsHelper.decode 5123456 3).1)])], true)) ∧
    whereGtFromSaltId 3 (col "Salt" none "postPk") 5123456
      = Sql.gtCol (col "Salt" none "postPk").base (SaltIdsHelper.decode 5123456 3).1 ∧
    whereLtFromSaltId 3 (col "Salt" none "postPk") 5123456
      = Sql.ltCol (col "Salt" none "postPk").base (SaltIdsHelper.decode 5123456 3).1 ∧
    whereBetweenFromSaltIds 3 (col "Salt" none "postPk") 1999 2555
      = Sql.betweenCol (col "Salt" none "postPk").base
          (min (SaltIdsHelper.decode 1999 3).1 (SaltIdsHelper.decode 2555 3).1)
          (max (SaltIdsHelper.decode 1999 3).1 (SaltIdsHelper.decode 2555 3).1) ∧
    (whereGtFromSaltId 3 (col "Salt" none "postPk") 5123456).colsOf
      = [(col "Salt" none "postPk").base] ∧
    (whereLtFromSaltId 3 (col "Salt" none "postPk") 5123456).colsOf
      = [(col "Salt" none "postPk").base] ∧
    (whereBetweenFromSaltIds 3 (col "Salt" none "postPk") 1999 2555).colsOf
      = [(col "Salt" none "postPk").base] :=
  c6_range_comparisons_real_id_only 0 5123456 3 "gt" (col "Salt" none "postPk")
    5123456 1999 2555 (Or.inl rfl) (by decide)

/-- **C9** A membership filter `in` on a registered base field whose list
is non-empty but holds no numeric value is silently dropped: the `in`
condition is deleted, the now-empty base-field key is removed, no
replacement clause is appended, and no transformation is reported. -/
theorem c9_in_filter_without_numbers_dropped (fuel : Nat) (L : Nat)
    (vs : List JSVal) (hne : vs ≠ []) (hnn : ∀ x ∈ vs, isNumV x = false) :
    deepTransformInput (fuel + 1)
        (.obj [("postPk", .obj [("in", .arr vs)])]) "Post" postRegistry L
      = (.obj [], false) := by
  have hlen : 0 < vs.length := List.length_pos.mpr hne
  have h := tsff_in_all_dropped [("postPk", .obj [("in", .arr vs)])]
    "postPk" "postPkSalt" vs L hlen (jsNums_nil vs hnn)
  simp [deepTransformInput, ModelRegistry.getSaltFields, postRegistry, getK, h, delK]

/-- **C9 witness**: a one-element list holding a string. -/
theorem c9_in_filter_without_numbers_dropped_witness :
    deepTransformInput 1
        (.obj [("postPk", .obj [("in", .arr [.str "x"])])]) "Post" postRegistry 3
      = (.obj [], false) :=
  c9_in_filter_without_numbers_dropped 0 3 [.str "x"] (by simp)
    (by intro x hx; simp at hx; subst hx; rfl)

/-! ## Salt injection on write (`deepInjectSalt`, current logic.ts lines 249–313)

`SaltIdsHelper.generateSalt` draws `Math.random()`; it is abstracted as a
generator oracle `gen : Nat → Int` (given the salt length).  Property
reads/writes on possibly-non-object values mirror JavaScript member
access (`undefined` on non-objects is key absence). -/

def propGet (v : JSVal) (k : String) : Option JSVal :=
  match v with
  | .obj o => getK o k
  | _ => none

def propSet (v : JSVal) (k : String) (x : JSVal) : JSVal :=
  match v with
  | .obj o => .obj (setK o k x)
  | _ => v

/-- JavaScript truthiness of the modelled values (`NaN` absent). -/
def jsTruthy : JSVal → Bool
  | .null => false
  | .bool b => b
  | .num n => n ≠ 0
  | .str s => s ≠ ""
  | .arr _ => true
  | .obj _ => true

/-- `deepInjectSalt` (current logic.ts lines 249–313): root-level salt
generation guarded by the default-value flags, then recursion into the
`create` / `createMany.data` / `connectOrCreate.create` / `upsert.create`
branches of relation-valued keys. -/
def deepInjectSalt (fuel : Nat) (data : JSVal) (modelName : String)
    (registry : ModelRegistry) (L : Nat) (gen : Nat → Int)
    (skipRootInjection : Bool) : JSVal :=
  match fuel with
  | 0 => data
  | fuel + 1 =>
    match data with
    | .arr xs =>
      if modelName = "" then data
      else .arr (xs.map (fun x =>
        deepInjectSalt fuel x modelName registry L gen skipRootInjection))
    | .obj o0 =>
      if modelName = "" then data
      else
        let o1 :=
          if skipRootInjection then o0
          else (registry.getSaltFields modelName).foldl (fun o sf =>
            let baseWillHaveValue := sf.hasDefaultValue || !(getK o sf.base).isNone
            let saltHasNoValue := (getK o sf.salt).isNone
            let saltNeedsGeneration := !sf.saltHasDefaultValue
            if baseWillHaveValue && saltHasNoValue && saltNeedsGeneration then
              setK o sf.salt (.num (gen L))
            else o) o0
        let keys := o1.map Prod.fst
        let o2 := keys.foldl (fun (o : JSObj) k =>
          match getK o k with
          | none => o
          | some val =>
            match val with
            | .obj _ | .arr _ =>
              match registry.getRelation modelName k with
              | some rel =>
                let target := rel.type
                let v1 :=
                  match propGet val "create" with
                  | some c =>
                    if jsTruthy c then
                      propSet val "create" (deepInjectSalt fuel c target registry L gen false)
                    else val
                  | none => val
                let v2 :=
                  match propGet v1 "createMany" with
                  | some cm =>
                    if jsTruthy cm then
                      match propGet cm "data" with
                      | some d =>
                        if jsTruthy d then
                          propSet v1 "createMany"
                            (propSet cm "data" (deepInjectSalt fuel d target registry L gen false))
                        else v1
                      | none => v1
                    else v1
                  | none => v1
                let v3 :=
                  match propGet v2 "connectOrCreate" with
                  | some cc =>
                    if jsTruthy cc then
                      match propGet cc "create" with
                      | some cr =>
                        if jsTruthy cr then
                          propSet v2 "connectOrCreate"
                            (propSet cc "create" (deepInjectSalt fuel cr target registry L gen false))
                        else v2
                      | none => v2
                    else v2
                  | none => v2
                let v4 :=
                  match propGet v3 "upsert" with
                  | some up =>
                    if jsTruthy up then
                      match propGet up "create" with
                      | some cr =>
                        if jsTruthy cr then
                          propSet v3 "upsert"
                            (propSet up "create" (deepInjectSalt fuel cr target registry L gen false))
                        else v3
                      | none => v3
                    else v3
                  | none => v3
                setK o k v4
              | none => o
            | _ => o) o1
        .obj o2
    | _ => data

/-- A one-pair registry with configurable default-value flags. -/
def postRegistryD (hd shd : Bool) : ModelRegistry :=
  ⟨[("Post", [⟨"postPk", "postPkSalt", hd, shd⟩])], [("Post", [])]⟩

/-- An optional scalar entry of a write payload. -/
def optEntry (k : String) (v : Option Int) : JSObj :=
  match v with
  | some n => [(k, .num n)]
  | none => []

/-- **C4** Pass B salt injection on create: for a create payload,
`deepInjectSalt` generates and assigns a fresh salt exactly when the
salt field has no explicit value (`saltE.isNone`), the salt field has no
storage-layer default (`!shd`), and the base field will end up with a
value via default or explicit provision (`hd || baseE.isSome`); in every
other case the payload is unchanged.  The three exceptions of the claim
are: (a) explicit salt — `saltE.isSome`; (b) salt populated by a
storage-layer default — `shd`; (c) base will not receive a value —
`!hd && baseE.isNone`. -/
theorem c4_inject_salt_on_create (fuel L : Nat) (gen : Nat → Int)
    (hd shd : Bool) (baseE saltE : Option Int) :
    deepInjectSalt (fuel + 1)
        (.obj (optEntry "postPk" baseE ++ optEntry "postPkSalt" saltE))
        "Post" (postRegistryD hd shd) L gen false
      = .obj (if (hd || baseE.isSome) && saltE.isNone && !shd
              then optEntry "postPk" baseE ++ [("postPkSalt", .num (gen L))]
              else optEntry "postPk" baseE ++ optEntry "postPkSalt" saltE) := by
  cases baseE <;> cases saltE <;> cases hd <;> cases shd <;>
    simp [deepInjectSalt, postRegistryD, ModelRegistry.getSaltFields, optEntry, getK, setK]

/-- **C4 witness**: empty payload, base with default, salt without
default: the fresh salt is injected (instantiated at `gen = fun _ => 512`,
`saltLen = 3`). -/
theorem c4_inject_salt_on_create_witness :
    deepInjectSalt 1 (.obj (optEntry "postPk" none ++ optEntry "postPkSalt" none))
        "Post" (postRegistryD true false) 3 (fun _ => 512) false
      = .obj (if (true || (none : Option Int).isSome)
                && (none : Option Int).isNone && !false
              then optEntry "postPk" none ++ [("postPkSalt", .num ((fun _ => (512 : Int)) 3))]
              else optEntry "postPk" none ++ optEntry "postPkSalt" none) :=
  c4_inject_salt_on_create 0 3 (fun _ => 512) true false none none

/-! ## Result hijacking (`deepHijackResult`, logic.ts; `hijackObject`, raw.ts)

Result records carry JavaScript property attributes, so they get a richer
model than argument trees: each property is `(name, enumerable, slot)`.
A slot is either an ordinary stored value or the computed accessor
installed by hijacking (`idAccessor baseVal saltVal saltLength`, whose
getter returns `SaltIdsHelper.encode baseVal saltVal saltLength` and
whose setter is a no-op).  Reading an accessor whose stored salt fails
`encode` validation throws; `ReadRes.err` propagates such exceptions.
`Object.defineProperty` on an existing key keeps its position;
on a new key it appends. -/

inductive HVal where
  | null : HVal
  | bool (b : Bool) : HVal
  | num (n : Int) : HVal
  | str (s : String) : HVal
  | arr (xs : List HVal) : HVal
  | obj (props : List (String × Bool × HVal)) : HVal
  | idAccessor (baseVal saltVal : Int) (saltLength : Nat) : HVal

abbrev HProps := List (String × Bool × HVal)

inductive ReadRes where
  | undef : ReadRes
  | val (v : HVal) : ReadRes
  | err : ReadRes

def hGetK : HProps → String → Option HVal
  | [], _ => none
  | (k', _, v) :: rest, k => if k' = k then some v else hGetK rest k

def hHasK (o : HProps) (k : String) : Bool := o.any (fun e => e.1 = k)

/-- `Object.defineProperty`: replace in place (flag and slot) or append. -/
def hSetK : HProps → String → Bool → HVal → HProps
  | [], k, e, v => [(k, e, v)]
  | (k', e', v') :: rest, k, e, v =>
    if k' = k then (k, e, v) :: rest else (k', e', v') :: hSetK rest k e v

/-- Plain assignment to an existing data property: value replaced,
enumerability kept. -/
def updateVal (o : HProps) (k : String) (v : HVal) : HProps :=
  o.map (fun e => if e.1 = k then (e.1, e.2.1, v) else e)

/-- Evaluate a property slot (invoking the accessor getter). -/
def readSlot (slot : HVal) : ReadRes :=
  match slot with
  | .idAccessor b s L =>
    match SaltIdsHelper.encode b s L with
    | some p => .val (.num p)
    | none => .err
  | v => .val v

def readProp (o : HProps) (k : String) : ReadRes :=
  match hGetK o k with
  | none => .undef
  | some slot => readSlot slot

/-- The getter result of an installed accessor. -/
def encodeRead (b s : Int) (L : Nat) : ReadRes :=
  match SaltIdsHelper.encode b s L with
  | some p => .val (.num p)
  | none => .err

/-- Property assignment `o[k] = v`: ignored on an accessor (its setter is
a no-op), updates a data property, creates an enumerable one otherwise. -/
def writeProp (o : HProps) (k : String) (v : HVal) : HProps :=
  match hGetK o k with
  | some (.idAccessor _ _ _) => o
  | some _ => updateVal o k v
  | none => o ++ [(k, true, v)]

/-- `Object.keys` / enumeration: own enumerable property names. -/
def enumKeys (o : HProps) : List String :=
  (o.filter (fun e => e.2.1)).map (fun e => e.1)

def strEndsWith (s suf : String) : Bool := suf.data.isSuffixOf s.data

/-- `key.slice(0, -suffix.length)`. -/
def stripSuffix (s suf : String) : String :=
  ⟨s.data.take (s.data.length - suf.data.length)⟩

/-- The per-suffix-key hijack block of `deepHijackResult` (current
logic.ts lines 334–380): reads salt and base values, checks the registry
(suppressed without model context), installs the hidden salt and the
computed base accessor when both are numeric, or hides the salt slot as
`null` when the base value is `null`. -/
def hijackStep (o : HProps) (k suffix : String) (L : Nat)
    (modelName : Option String) (registry : Option ModelRegistry) :
    Except Unit HProps :=
  match readProp o k with
  | .err => .error ()
  | saltValR =>
    let baseKey := stripSuffix k suffix
    match readProp o baseKey with
    | .err => .error ()
    | baseValR =>
      let shouldHijack :=
        match registry with
        | none => true
        | some r =>
          match modelName with
          | none => false
          | some m => (r.getSaltFields m).any (fun sf => sf.base = baseKey && sf.salt = k)
      match shouldHijack, saltValR, baseValR with
      | true, .val (.num svn), .val (.num bvn) =>
        .ok (hSetK (hSetK o k false (.num svn)) baseKey true (.idAccessor bvn svn L))
      | true, _, .val .null => .ok (hSetK o k false .null)
      | _, _, _ => .ok o

/-- `deepHijackResult` (current logic.ts lines 319–392), fuel-based.
A thrown getter error aborts the walk (`Except.error`). -/
def deepHijackResult (fuel : Nat) (v : HVal) (suffix : String) (L : Nat)
    (modelName : Option String) (registry : Option ModelRegistry) :
    Except Unit HVal :=
  match fuel with
  | 0 => .ok v
  | fuel + 1 =>
    match v with
    | .arr xs =>
      let rs := xs.map (fun x => deepHijackResult fuel x suffix L modelName registry)
      if rs.all (fun r => r.isOk) then .ok (.arr (rs.filterMap (fun r => r.toOption)))
      else .error ()
    | .obj props0 =>
      let keys := props0.map (fun e => e.1)
      let res := keys.foldl (fun (st : Except Unit HProps) k =>
        match st with
        | .error e => .error e
        | .ok o =>
          match (if strEndsWith k suffix then hijackStep o k suffix L modelName registry
                 else .ok o) with
          | .error e => .error e
          | .ok o1 =>
            match hGetK o1 k with
            | none => .ok o1
            | some slot =>
              match readSlot slot with
              | .err => .error ()
              | .undef => .ok o1
              | .val v =>
                match v with
                | .obj _ | .arr _ =>
                  let nextModel :=
                    match registry, modelName with
                    | some r, some m => (r.getRelation m k).map (fun rel => rel.type)
                    | _, _ => none
                  match deepHijackResult fuel v suffix L nextModel registry with
                  | .error e => .error e
                  | .ok v' => .ok (updateVal o1 k v')
                | _ => .ok o1) (.ok props0)
      match res with
      | .error e => .error e
      | .ok o => .ok (.obj o)
    | _ => .ok v

/-- One pair of `hijackObject`'s field loop (src/raw.ts lines 49–84):
requires both keys present; hides the salt (keeping its value) and
installs the computed base accessor when both are numeric, or hides the
salt keeping its stored value when the base is `null`. -/
def hijackPair (o : HProps) (bk sk : String) (L : Nat) : Except Unit HProps :=
  if hHasK o sk = false then .ok o
  else if hHasK o bk = false then .ok o
  else
    match readProp o sk with
    | .err => .error ()
    | saltValR =>
      match readProp o bk with
      | .err => .error ()
      | baseValR =>
        match saltValR, baseValR with
        | .val (.num svn), .val (.num bvn) =>
          .ok (hSetK (hSetK o sk false (.num svn)) bk true (.idAccessor bvn svn L))
        | .val svv, .val .null => .ok (hSetK o sk false svv)
        | _, _ => .ok o

/-- `hijackObject` (src/raw.ts lines 49–84) on an object's properties. -/
def hijackObject (o : HProps) (fields : List (String × String)) (L : Nat) :
    Except Unit HProps :=
  fields.foldl (fun st p =>
    match st with
    | .error e => .error e
    | .ok o => hijackPair o p.1 p.2 L) (.ok o)

/-- **C2** Result hijacking contract: hijacking a result record holding a
registered `(postPk, postPkSalt)` pair with numeric values (plus an
unrelated field) makes the salt property non-enumerable while (1) it no
longer appears among the enumerable own property names, (2) reading it
directly still returns its raw stored value, (3) reading the base field
returns `encode(storedBase, storedSalt, saltLength)` (throw included, via
`encodeRead`), and (4) assigning to the base field is silently ignored;
the raw `hijackObject` establishes the same contract. -/
theorem c2_result_hijacking_contract (fuel L : Nat) (bv sv : Int) (nm : String)
    (x : HVal) :
    (deepHijackResult (fuel + 1)
        (.obj [("postPk", true, .num bv), ("postPkSalt", true, .num sv),
               ("name", true, .str nm)])
        "Salt" L (some "Post") (some postRegistry)
      = .ok (.obj [("postPk", true, .idAccessor bv sv L),
                   ("postPkSalt", false, .num sv), ("name", true, .str nm)])) ∧
    ("postPkSalt" ∉ enumKeys [("postPk", true, .idAccessor bv sv L),
                              ("postPkSalt", false, .num sv), ("name", true, .str nm)]) ∧
    (readProp [("postPk", true, .idAccessor bv sv L),
               ("postPkSalt", false, .num sv), ("name", true, .str nm)] "postPkSalt"
      = .val (.num sv)) ∧
    (readProp [("postPk", true, .idAccessor bv sv L),
               ("postPkSalt", false, .num sv), ("name", true, .str nm)] "postPk"
      = encodeRead bv sv L) ∧
    (writeProp [("postPk", true, .idAccessor bv sv L),
                ("postPkSalt", false, .num sv), ("name", true, .str nm)] "postPk" x
      = [("postPk", true, .idAccessor bv sv L),
         ("postPkSalt", false, .num sv), ("name", true, .str nm)]) ∧
    (hijackObject [("postPk", true, .num bv), ("postPkSalt", true, .num sv)]
        [("postPk", "postPkSalt")] L
      = .ok [("postPk", true, .idAccessor bv sv L), ("postPkSalt", false, .num sv)]) ∧
    ("postPkSalt" ∉ enumKeys [("postPk", true, .idAccessor bv sv L),
                              ("postPkSalt", false, .num sv)]) ∧
    (readProp [("postPk", true, .idAccessor bv sv L),
               ("postPkSalt", false, .num sv)] "postPkSalt" = .val (.num sv)) ∧
    (readProp [("postPk", true, .idAccessor bv sv L),
               ("postPkSalt", false, .num sv)] "postPk" = encodeRead bv sv L) ∧
    (writeProp [("postPk", true, .idAccessor bv sv L),
                ("postPkSalt", false, .num sv)] "postPk" x
      = [("postPk", true, .idAccessor bv sv L), ("postPkSalt", false, .num sv)]) := by
  have h1 : strEndsWith "postPk" "Salt" = false := by decide
  have h2 : strEndsWith "postPkSalt" "Salt" = true := by decide
  have h3 : strEndsWith "name" "Salt" = false := by decide
  have h4 : stripSuffix "postPkSalt" "Salt" = "postPk" := by decide
  refine ⟨?_, ?_, rfl, rfl, rfl, rfl, ?_, rfl, rfl, rfl⟩
  · simp [deepHijackResult, hijackStep, readProp, readSlot, hGetK, hSetK,
      ModelRegistry.getSaltFields, postRegistry, h1, h2, h3, h4]
  · simp [enumKeys]
  · simp [enumKeys]

/-- **C2 witness**: the contract at `bv = 3456`, `sv = 512`,
`saltLength = 3`, write attempt `num 0`. -/
theorem c2_result_hijacking_contract_witness :
    (deepHijackResult 1
        (.obj [("postPk", true, .num 3456), ("postPkSalt", true, .num 512),
               ("name", true, .str "a")])
        "Salt" 3 (some "Post") (some postRegistry)
      = .ok (.obj [("postPk", true, .idAccessor 3456 512 3),
                   ("postPkSalt", false, .num 512), ("name", true, .str "a")])) ∧
    ("postPkSalt" ∉ enumKeys [("postPk", true, .idAccessor 3456 512 3),
                              ("postPkSalt", false, .num 512), ("name", true, .str "a")]) ∧
    (readProp [("postPk", true, .idAccessor 3456 512 3),
               ("postPkSalt", false, .num 512), ("name", true, .str "a")] "postPkSalt"
      = .val (.num 512)) ∧
    (readProp [("postPk", true, .idAccessor 3456 512 3),
               ("postPkSalt", false, .num 512), ("name", true, .str "a")] "postPk"
      = encodeRead 3456 512 3) ∧
    (writeProp [("postPk", true, .idAccessor 3456 512 3),
                ("postPkSalt", false, .num 512), ("name", true, .str "a")] "postPk" (.num 0)
      = [("postPk", true, .idAccessor 3456 512 3),
         ("postPkSalt", false, .num 512), ("name", true, .str "a")]) ∧
    (hijackObject [("postPk", true, .num 3456), ("postPkSalt", true, .num 512)]
        [("postPk", "postPkSalt")] 3
      = .ok [("postPk", true, .idAccessor 3456 512 3), ("postPkSalt", false, .num 512)]) ∧
    ("postPkSalt" ∉ enumKeys [("postPk", true, .idAccessor 3456 512 3),
                              ("postPkSalt", false, .num 512)]) ∧
    (readProp [("postPk", true, .idAccessor 3456 512 3),
               ("postPkSalt", false, .num 512)] "postPkSalt" = .val (.num 512)) ∧
    (readProp [("postPk", true, .idAccessor 3456 512 3),
               ("postPkSalt", false, .num 512)] "postPk" = encodeRead 3456 512 3) ∧
    (writeProp [("postPk", true, .idAccessor 3456 512 3),
                ("postPkSalt", false, .num 512)] "postPk" (.num 0)
      = [("postPk", true, .idAccessor 3456 512 3), ("postPkSalt", false, .num 512)]) :=
  c2_result_hijacking_contract 0 3 3456 512 "a" (.num 0)

/-! ## `findUnique` downgrade (`src/index.ts`, `$allOperations`)

The interceptor's special path for `operation === "findUnique"` when the
argument transformation introduced salt conditions: salt fields are
recursively extracted and removed from `args.where`, stripped salt keys
are added to an existing `select` projection, the *original* `findUnique`
continuation (`query`) is re-executed on the cleaned arguments, and the
returned row's salt values are verified against the expected ones,
nulling the result on mismatch.  The continuation is an oracle
`q : JSVal → JSVal`; the executed operation name is recorded in the
trace (this version of the code always runs the intercepted operation
itself — it never substitutes a different read). -/

/-- JavaScript strict equality on the modelled values.  Objects and
arrays compare by reference; a row returned by the driver is never
reference-identical to a filter value, so those compare unequal. -/
def jsStrictEq : JSVal → JSVal → Bool
  | .null, .null => true
  | .bool a, .bool b => a == b
  | .num a, .num b => a == b
  | .str a, .str b => a == b
  | _, _ => false

/-- `extractAndRemoveSalts` (src/index.ts lines 75–86): delete every
registered salt key from the filter tree, recording its value (later
occurrences of the same key overwrite earlier ones). -/
def extractAndRemoveSalts (fuel : Nat) (v : JSVal) (saltFields : List SaltField)
    (acc : JSObj) : JSVal × JSObj :=
  match fuel with
  | 0 => (v, acc)
  | fuel + 1 =>
    match v with
    | .obj o0 =>
      let keys := o0.map Prod.fst
      let r := keys.foldl (fun (st : JSObj × JSObj) k =>
        let o := st.1
        let acc := st.2
        match getK o k with
        | none => (o, acc)
        | some val =>
          if (saltFields.find? (fun f => f.salt = k)).isSome then
            (delK o k, setK acc k val)
          else
            match val with
            | .obj _ | .arr _ =>
              let rv := extractAndRemoveSalts fuel val saltFields acc
              (setK o k rv.1, rv.2)
            | _ => (o, acc)) (o0, acc)
      (.obj r.1, r.2)
    | .arr xs =>
      let r := xs.foldl (fun (st : List JSVal × JSObj) x =>
        let rv := extractAndRemoveSalts fuel x saltFields st.2
        (st.1 ++ [rv.1], rv.2)) ([], acc)
      (.arr r.1, r.2)
    | _ => (v, acc)

/-- What the interceptor executed and produced. -/
structure FindUniqueTrace where
  executedOp : String
  executedArgs : JSVal
  result : JSVal

/-- The `findUnique` branch of `$allOperations` (src/index.ts lines
70–110): when `didTransformId`, strip salts from `args.where`, add the
stripped keys to an existing `select`, re-run the original `findUnique`
continuation, and null the result on a salt mismatch; otherwise run the
continuation on the untouched arguments. -/
def findUniqueDowngrade (fuel : Nat) (args : JSVal) (saltFields : List SaltField)
    (didTransformId : Bool) (q : JSVal → JSVal) : FindUniqueTrace :=
  if didTransformId then
    let extracted :=
      match propGet args "where" with
      | some wv =>
        if jsTruthy wv then
          let rv := extractAndRemoveSalts fuel wv saltFields []
          (propSet args "where" rv.1, rv.2)
        else (args, [])
      | none => (args, [])
    let args1 := extracted.1
    let expected := extracted.2
    let args2 :=
      match propGet args1 "select" with
      | some sel =>
        if jsTruthy sel && !expected.isEmpty then
          propSet args1 "select"
            (match sel with
             | .obj so => .obj (expected.foldl (fun so e => setK so e.1 (.bool true)) so)
             | other => other)
        else args1
      | none => args1
    let res := q args2
    let res1 :=
      if jsTruthy res then
        if expected.any (fun e =>
            match propGet res e.1 with
            | some v => !(jsStrictEq v e.2)
            | none => true) then .null
        else res
      else res
    ⟨"findUnique", args2, res1⟩
  else ⟨"findUnique", args, q args⟩

/-- **C5 counterexample**: on a transformed `findUnique` whose `where`
carries `{postPk: 3456, postPkSalt: 512}`, the extension re-executes the
*original unique* `findUnique` continuation on the stripped filter — it
does not substitute a non-unique-capable read (`findFirst`), contrary to
the claim. -/
theorem c5_counterexample_unique_read_reexecuted :
    (findUniqueDowngrade 2
        (.obj [("where", .obj [("postPk", .num 3456), ("postPkSalt", .num 512)])])
        [⟨"postPk", "postPkSalt", false, false⟩] true
        (fun _ => .obj [("postPk", .num 3456), ("postPkSalt", .num 512)])).executedOp
      = "findUnique" ∧
    ¬ ((findUniqueDowngrade 2
        (.obj [("where", .obj [("postPk", .num 3456), ("postPkSalt", .num 512)])])
        [⟨"postPk", "postPkSalt", false, false⟩] true
        (fun _ => .obj [("postPk", .num 3456), ("postPkSalt", .num 512)])).executedOp
      = "findFirst") :=
  ⟨rfl, by decide⟩

/-- **C5 (amended)** Point-lookup handling: for a transformed `findUnique`
(`didTransformId = true`) whose filter carries a registered salt
condition, the extension removes the salt field from the `where` filter,
re-executes the original unique read on the stripped arguments, and
verifies the returned row's salt field equals the expected decoded salt
value, replacing the result with `null` on mismatch (a truthy row lacking
the salt field also yields `null`); when no transformation occurred the
original unique read is executed on the unchanged arguments. -/
theorem c5_amended_point_lookup (fuel : Nat) (i s : Int) (q : JSVal → JSVal)
    (a : JSVal) :
    ((findUniqueDowngrade (fuel + 1)
        (.obj [("where", .obj [("postPk", .num i), ("postPkSalt", .num s)])])
        [⟨"postPk", "postPkSalt", false, false⟩] true q).executedOp = "findUnique") ∧
    ((findUniqueDowngrade (fuel + 1)
        (.obj [("where", .obj [("postPk", .num i), ("postPkSalt", .num s)])])
        [⟨"postPk", "postPkSalt", false, false⟩] true q).executedArgs
      = .obj [("where", .obj [("postPk", .num i)])]) ∧
    ((findUniqueDowngrade (fuel + 1)
        (.obj [("where", .obj [("postPk", .num i), ("postPkSalt", .num s)])])
        [⟨"postPk", "postPkSalt", false, false⟩] true q).result
      = (if jsTruthy (q (.obj [("where", .obj [("postPk", .num i)])])) then
           if (match propGet (q (.obj [("where", .obj [("postPk", .num i)])])) "postPkSalt" with
               | some v => !(jsStrictEq v (.num s))
               | none => true) then .null
           else q (.obj [("where", .obj [("postPk", .num i)])])
         else q (.obj [("where", .obj [("postPk", .num i)])]))) ∧
    (findUniqueDowngrade (fuel + 1) a
        [⟨"postPk", "postPkSalt", false, false⟩] false q
      = ⟨"findUnique", a, q a⟩) := by
  refine ⟨?_, ?_, ?_, ?_⟩ <;>
    simp [findUniqueDowngrade, extractAndRemoveSalts, propGet, propSet, getK, setK,
      delK, jsTruthy]

/-- **C5 witness**: the amended claim at `i = 3456`, `s = 512`, with a
continuation returning a matching row (all right-hand sides evaluated),
and `a` an empty argument object. -/
theorem c5_amended_point_lookup_witness :
    ((findUniqueDowngrade 1
        (.obj [("where", .obj [("postPk", .num 3456), ("postPkSalt", .num 512)])])
        [⟨"postPk", "postPkSalt", false, false⟩] true
        (fun _ => .obj [("postPk", .num 3456), ("postPkSalt", .num 512)])).executedOp
      = "findUnique") ∧
    ((findUniqueDowngrade 1
        (.obj [("where", .obj [("postPk", .num 3456), ("postPkSalt", .num 512)])])
        [⟨"postPk", "postPkSalt", false, false⟩] true
        (fun _ => .obj [("postPk", .num 3456), ("postPkSalt", .num 512)])).executedArgs
      = .obj [("where", .obj [("postPk", .num 3456)])]) ∧
    ((findUniqueDowngrade 1
        (.obj [("where", .obj [("postPk", .num 3456), ("postPkSalt", .num 512)])])
        [⟨"postPk", "postPkSalt", false, false⟩] true
        (fun _ => .obj [("postPk", .num 3456), ("postPkSalt", .num 512)])).result
      = .obj [("postPk", .num 3456), ("postPkSalt", .num 512)]) ∧
    (findUniqueDowngrade 1 (.obj [])
        [⟨"postPk", "postPkSalt", false, false⟩] false
        (fun _ => .obj [("postPk", .num 3456), ("postPkSalt", .num 512)])
      = ⟨"findUnique", .obj [], .obj [("postPk", .num 3456), ("postPkSalt", .num 512)]⟩) :=
  c5_amended_point_lookup 0 3456 512
    (fun _ => .obj [("postPk", .num 3456), ("postPkSalt", .num 512)]) (.obj [])
